import Mathlib

/-
Verification of the tile resolution and stacking engine of datasette-tiles
(`datasette_tiles/__init__.py`), shallowly embedded in Lean.

Bytes are modelled as `List Nat`, a tile database as a point-query function
from `(zoom_level, tile_column, tile_row)` to an optional blob, and the
HTTP response object by its observable fields (body, content type, status,
headers).  The XYZ row conversion `int(math.pow(2, z) - 1 - y)` is computed
by the interpreter through IEEE binary64 doubles; every intermediate value
of that pipeline is an integer (doubles of magnitude at least 2^52 are
integers, and integers of magnitude at most 2^53 are exactly
representable), so the computation is embedded exactly over `Int` with an
explicit round-to-nearest-even function.  The OverflowError paths —
`math.pow` for z ≥ 1024, the int-to-float conversion of an oversized
operand, and `int()` of an infinite float — are modelled as `none` and
propagate as an error, not a miss.
-/

set_option maxRecDepth 10000

namespace DatasetteTiles

/-- Raw tile bytes. -/
abbrev Blob := List Nat

/-- The fixed empty vector tile constant `MVT_404` (36 bytes, gzip data). -/
def MVT_404 : Blob :=
  [0x1F, 0x8B, 0x08, 0x00, 0xFA, 0x78, 0x18, 0x5E, 0x00, 0x03, 0x93, 0xE2,
   0xE3, 0x62, 0x8F, 0x8F, 0x4F, 0xCD, 0x2D, 0x28, 0xA9, 0xD4, 0x68, 0x50,
   0xA8, 0x60, 0x02, 0x00, 0x64, 0x71, 0x44, 0x36, 0x10, 0x00, 0x00, 0x00]

/-- A tile database: the point query `SELECT tile_data FROM tiles WHERE
    zoom_level = :z AND tile_column = :x AND tile_row = :y`, returning the
    blob of the matching row or nothing.  The row is an `Int` because the
    XYZ transform can produce a negative row index. -/
abbrev Db := Nat → Nat → Int → Option Blob

/-- The observable part of a datasette `Response`: body, content type,
    status (default 200) and extra headers. -/
structure Response where
  body : Blob
  content_type : String
  status : Nat := 200
  headers : List (String × String) := []
deriving DecidableEq

/-- Floor of the base-2 logarithm by repeated halving.  The first
    argument is fuel and decreases structurally; `n` itself is always
    enough fuel, since halving reaches 1 after `⌊log2 n⌋ ≤ n` steps. -/
def log2Fuel : Nat → Nat → Nat
  | 0, _ => 0
  | fuel + 1, n => if n ≤ 1 then 0 else log2Fuel fuel (n / 2) + 1

/-- `⌊log2 n⌋` (0 for n = 0). -/
def log2Nat (n : Nat) : Nat := log2Fuel n n

/-- Round an integer to the nearest IEEE binary64 double (round to
    nearest, ties to even).  Integers of magnitude at most `2^53` are
    exactly representable; above that the representable values are the
    multiples of `2^e` for `e = ⌊log2 |v|⌋ - 52` (53-bit significand).
    The result is again an integer; the finite-range check (`< 2^1024`)
    is the caller's concern. -/
def roundB64Int (v : Int) : Int :=
  let n := v.natAbs
  if n ≤ 2 ^ 53 then v
  else
    let e := log2Nat n - 52
    let q := n / 2 ^ e
    let r := n % 2 ^ e
    let n' := if 2 * r > 2 ^ e ∨ (2 * r = 2 ^ e ∧ q % 2 = 1) then (q + 1) * 2 ^ e
              else q * 2 ^ e
    if v < 0 then -(n' : Int) else (n' : Int)

/-- Python's implicit int-to-float conversion (of `y` in `... - y`):
    round to the nearest double, raising OverflowError (`none`) when the
    result falls outside the finite double range. -/
def floatOfInt (y : Int) : Option Int :=
  let r := roundB64Int y
  if r.natAbs < 2 ^ 1024 then some r else none

/-- `int(math.pow(2, z) - 1 - y)` as the interpreter computes it
    (`__init__.py` line 57): `math.pow(2, z)` is the exact power of two
    for z ≤ 1023 and raises OverflowError (`none`) beyond; each float
    subtraction rounds its exact result to binary64; `int()` of an
    infinite float raises OverflowError. -/
def xyzToTms (z : Nat) (y : Int) : Option Int :=
  if z ≥ 1024 then none
  else
    let t1 := roundB64Int (2 ^ z - 1)
    match floatOfInt y with
    | none => none
    | some yf =>
        let t2 := roundB64Int (t1 - yf)
        if t2.natAbs < 2 ^ 1024 then some t2 else none

/-- `load_tile(db, request, tms)`: convert the requested row to the TMS
    convention unless the request already used it, then query the
    database.  A `none` row computation is the uncaught OverflowError,
    which aborts the request (`.error`); the TMS branch uses the URL row
    directly and cannot fail. -/
def load_tile (db : Db) (z x y : Nat) (tms : Bool) : Except String (Option Blob) :=
  match (if tms then some (y : Int) else xyzToTms z (y : Int)) with
  | none => .error "OverflowError"
  | some row => .ok (db z x row)

/-- The environment a request handler sees: the set of valid mbtiles
    database names (`detect_mtiles_databases`), name-based database access
    (`datasette.get_database`), and the stack priority order
    (`tiles_stack_database_order`). -/
structure Datasette where
  mbtiles_databases : List String
  get_database : String → Db
  stack : List Db

/-- `_tile(request, datasette, tms)`: reject unknown database names with
    `NotFound("Not a valid mbtiles database")`, otherwise look the tile up
    and shape the response (404 + `MVT_404` on a miss, 200 + blob on a
    hit); an OverflowError from the row computation propagates. -/
def _tile (ds : Datasette) (db_name : String) (z x y : Nat) (tms : Bool) :
    Except String Response :=
  if db_name ∉ ds.mbtiles_databases then
    .error "Not a valid mbtiles database"
  else
    match load_tile (ds.get_database db_name) z x y tms with
    | .error e => .error e
    | .ok none =>
        .ok { body := MVT_404, content_type := "application/vnd.mapbox-vector-tile",
              status := 404, headers := [("Content-Encoding", "gzip")] }
    | .ok (some t) =>
        .ok { body := t, content_type := "application/vnd.mapbox-vector-tile",
              headers := [("Content-Encoding", "gzip")] }

/-- `_tiles_stack(datasette, request, tms)`: try each database of the
    priority order in turn, answering with the first present tile; fall
    back to 404 + `MVT_404` when none has it; an OverflowError from the
    row computation propagates. -/
def _tiles_stack (priority_order : List Db) (z x y : Nat) (tms : Bool) :
    Except String Response :=
  match priority_order with
  | [] =>
      .ok { body := MVT_404, content_type := "application/vnd.mapbox-vector-tile",
            status := 404, headers := [("Content-Encoding", "gzip")] }
  | database :: rest =>
      match load_tile database z x y tms with
      | .error e => .error e
      | .ok (some t) =>
          .ok { body := t, content_type := "application/vnd.mapbox-vector-tile",
                headers := [("Content-Encoding", "gzip")] }
      | .ok none => _tiles_stack rest z x y tms

/-- The metadata entries of one mbtiles database that
    `tiles_stack_explorer` reads from its `metadata` table: the optional
    `minzoom`, `maxzoom` (parsed with `int(...)`) and `attribution` rows. -/
structure Metadata where
  minzoom : Option Int := none
  maxzoom : Option Int := none
  attribution : Option String := none
deriving DecidableEq

/-- The template context fields computed by `tiles_stack_explorer` that
    depend on the stack (`default_zoom`, `min_zoom`, `max_zoom`,
    `attribution`). -/
structure StackExplorerContext where
  default_zoom : Int
  min_zoom : Int
  max_zoom : Int
  attribution : String
deriving DecidableEq

/-- `tiles_stack_explorer(datasette)`: collect the declared `minzoom` /
    `maxzoom` values over the stack's priority order, take their
    minimum / maximum, and pick an attribution.  The source initialises
    `attributions = []` and never appends to it inside the loop, so the
    list stays empty.  `min([])` / `max([])` raise `ValueError` in Python;
    that unhandled error is modelled as `none`. -/
def tiles_stack_explorer (priority_order : List Metadata) :
    Option StackExplorerContext :=
  let min_zooms := priority_order.filterMap Metadata.minzoom
  let max_zooms := priority_order.filterMap Metadata.maxzoom
  let attributions : List String := []
  let attribution :=
    if attributions.eraseDups.length = 1 then attributions.headD "" else ""
  match min_zooms, max_zooms with
  | [], _ => none
  | _, [] => none
  | mz :: mzs, xz :: xzs =>
      some { default_zoom := mzs.foldl min mz,
             min_zoom := mzs.foldl min mz,
             max_zoom := xzs.foldl max xz,
             attribution := attribution }

/-! Concrete databases and environments used to instantiate the theorems. -/

/-- A database holding no tiles at all. -/
def dbEmpty : Db := fun _ _ _ => none

/-- A database answering every point query with the one-byte blob `[1]`. -/
def dbOne : Db := fun _ _ _ => some [1]

/-- A database whose only tile sits at the key `(60, 0, 2^60 - 6)`. -/
def dbZ60 : Db := fun z x row =>
  if z = 60 ∧ x = 0 ∧ row = 2 ^ 60 - 6 then some [7] else none

/-- An environment with one valid database name `"a"` backed by `dbEmpty`. -/
def dsEmpty : Datasette := ⟨["a"], fun _ => dbEmpty, []⟩

/-- An environment with one valid database name `"a"` backed by `dbOne`. -/
def dsOne : Datasette := ⟨["a"], fun _ => dbOne, [dbOne]⟩

/-- An environment with one valid database name `"a"` backed by `dbZ60`. -/
def dsZ60 : Datasette := ⟨["a"], fun _ => dbZ60, [dbZ60]⟩

/-! Exactness of the double pipeline on small operands. -/

/-- Rounding is the identity on integers of magnitude at most `2^53`. -/
theorem roundB64Int_eq_self (v : Int) (h : v.natAbs ≤ 2 ^ 53) :
    roundB64Int v = v := by
  simp only [roundB64Int]
  rw [if_pos h]

/-- Int-to-float conversion is exact on integers of magnitude at most
    `2^53`. -/
theorem floatOfInt_eq_self (y : Int) (h : y.natAbs ≤ 2 ^ 53) :
    floatOfInt y = some y := by
  have h2 : y.natAbs < 2 ^ 1024 := by omega
  simp only [floatOfInt, roundB64Int_eq_self y h]
  rw [if_pos h2]

/-- For z ≤ 53 and `0 ≤ y < 2^53` every intermediate double is exact, so
    the computed row is the mathematical `2^z - 1 - y`. -/
theorem xyzToTms_exact (z : Nat) (y : Int) (hz : z ≤ 53) (h0 : 0 ≤ y)
    (h1 : y < 2 ^ 53) : xyzToTms z y = some (2 ^ z - 1 - y) := by
  have hp : (2 : Int) ^ z ≤ 2 ^ 53 := pow_le_pow_right₀ (by norm_num) hz
  have hpos : (0 : Int) < 2 ^ z := pow_pos (by norm_num) z
  unfold xyzToTms
  rw [if_neg (by omega : ¬ z ≥ 1024)]
  generalize hA : (2 : Int) ^ z = A at hp hpos ⊢
  rw [roundB64Int_eq_self (A - 1) (by omega), floatOfInt_eq_self y (by omega)]
  show (if (roundB64Int (A - 1 - y)).natAbs < 2 ^ 1024
        then some (roundB64Int (A - 1 - y)) else none) = some (A - 1 - y)
  rw [roundB64Int_eq_self (A - 1 - y) (by omega)]
  rw [if_pos (by omega : (A - 1 - y).natAbs < 2 ^ 1024)]

/-! Helper lemmas shared by the stack theorems. -/

/-- Sources that miss are scanned past without affecting the result. -/
theorem tiles_stack_skip (pre rest : List Db) (z x y : Nat) (tms : Bool)
    (hpre : ∀ d ∈ pre, load_tile d z x y tms = .ok none) :
    _tiles_stack (pre ++ rest) z x y tms = _tiles_stack rest z x y tms := by
  induction pre with
  | nil => rfl
  | cons d ds ih =>
      have hd : load_tile d z x y tms = .ok none := hpre d (by simp)
      rw [List.cons_append]
      rw [show _tiles_stack (d :: (ds ++ rest)) z x y tms
            = _tiles_stack (ds ++ rest) z x y tms by simp [_tiles_stack, hd]]
      exact ih fun d' hd' => hpre d' (List.mem_cons_of_mem _ hd')

/-- C1: for every stack and requested coordinate, resolution scans the
    sources in the supplied priority order, returns the bytes of the first
    source that has the tile unmodified, and the sources after the first
    hit never influence the result (no lookup happens on them). -/
theorem tiles_stack_first_hit (pre post : List Db) (database : Db)
    (z x y : Nat) (tms : Bool) (t : Blob)
    (hpre : ∀ d ∈ pre, load_tile d z x y tms = .ok none)
    (hhit : load_tile database z x y tms = .ok (some t)) :
    _tiles_stack (pre ++ database :: post) z x y tms =
      .ok { body := t, content_type := "application/vnd.mapbox-vector-tile",
            status := 200, headers := [("Content-Encoding", "gzip")] } ∧
    ∀ post' : List Db,
      _tiles_stack (pre ++ database :: post') z x y tms =
        _tiles_stack (pre ++ database :: post) z x y tms := by
  have key : ∀ q : List Db, _tiles_stack (pre ++ database :: q) z x y tms =
      .ok { body := t, content_type := "application/vnd.mapbox-vector-tile",
            status := 200, headers := [("Content-Encoding", "gzip")] } := by
    intro q
    rw [tiles_stack_skip pre (database :: q) z x y tms hpre]
    simp [_tiles_stack, hhit]
  exact ⟨key post, fun post' => (key post').trans (key post).symm⟩

/-- C1 witness: a missing source followed by a hit and one more source. -/
theorem tiles_stack_first_hit_witness :
    _tiles_stack ([dbEmpty] ++ dbOne :: [dbEmpty]) 0 0 0 false =
      .ok { body := [1], content_type := "application/vnd.mapbox-vector-tile",
            status := 200, headers := [("Content-Encoding", "gzip")] } ∧
    ∀ post' : List Db,
      _tiles_stack ([dbEmpty] ++ dbOne :: post') 0 0 0 false =
        _tiles_stack ([dbEmpty] ++ dbOne :: [dbEmpty]) 0 0 0 false :=
  tiles_stack_first_hit [dbEmpty] [dbEmpty] dbOne 0 0 0 false [1]
    (by intro d hd; simp at hd; subst hd; rfl) rfl

/-- C2: on a miss — a valid single-source request whose lookup comes back
    empty, or a stack (the empty stack included) in which every source
    misses — the response has status 404, body exactly `MVT_404`, the
    vector-tile content type and a gzip content-encoding header, and the
    body is not empty. -/
theorem miss_responses (ds : Datasette) (db_name : String) (stack : List Db)
    (z x y : Nat) (tms : Bool)
    (hname : db_name ∈ ds.mbtiles_databases)
    (hmiss : load_tile (ds.get_database db_name) z x y tms = .ok none)
    (hstack : ∀ d ∈ stack, load_tile d z x y tms = .ok none) :
    _tile ds db_name z x y tms =
      .ok { body := MVT_404, content_type := "application/vnd.mapbox-vector-tile",
            status := 404, headers := [("Content-Encoding", "gzip")] } ∧
    _tiles_stack stack z x y tms =
      .ok { body := MVT_404, content_type := "application/vnd.mapbox-vector-tile",
            status := 404, headers := [("Content-Encoding", "gzip")] } ∧
    MVT_404 ≠ [] := by
  refine ⟨by simp [_tile, hname, hmiss], ?_, by simp [MVT_404]⟩
  rw [← List.append_nil stack, tiles_stack_skip stack [] z x y tms hstack]
  rfl

/-- C2 witness: the sole valid source `"a"` is empty, and so is the stack. -/
theorem miss_responses_witness :
    _tile dsEmpty "a" 0 0 0 false =
      .ok { body := MVT_404, content_type := "application/vnd.mapbox-vector-tile",
            status := 404, headers := [("Content-Encoding", "gzip")] } ∧
    _tiles_stack [] 0 0 0 false =
      .ok { body := MVT_404, content_type := "application/vnd.mapbox-vector-tile",
            status := 404, headers := [("Content-Encoding", "gzip")] } ∧
    MVT_404 ≠ [] :=
  miss_responses dsEmpty "a" [] 0 0 0 false (by simp [dsEmpty]) rfl (by simp)

/-- C3 counterexample: at zoom 60 the computed transform is not an
    involution on `[0, 2^60)` — row 5 maps to `2^60` (the float
    subtraction rounds `2^60 - 1` and `2^60 - 5` up to `2^60`) and back
    to 0, not 5. -/
theorem xyzToTms_involution_counterexample :
    (0 ≤ (5 : Int) ∧ (5 : Int) < 2 ^ 60) ∧
    xyzToTms 60 5 = some (2 ^ 60) ∧
    (xyzToTms 60 5).bind (xyzToTms 60) = some 0 ∧
    some (0 : Int) ≠ some (5 : Int) := by
  exact ⟨⟨by decide, by decide⟩, by decide, by decide, by decide⟩

/-- C3 (amended): for z ≤ 53 — where every intermediate double of
    `int(math.pow(2, z) - 1 - y)` is exact — the transform is an
    involution on `[0, 2^z)`. -/
theorem xyzToTms_involution_amended (z : Nat) (y : Int)
    (hz : z ≤ 53) (h0 : 0 ≤ y) (h1 : y < 2 ^ z) :
    (xyzToTms z y).bind (xyzToTms z) = some y := by
  have hp : (2 : Int) ^ z ≤ 2 ^ 53 := pow_le_pow_right₀ (by norm_num) hz
  have hpz : (0 : Int) < 2 ^ z := pow_pos (by norm_num) z
  have h1' : y < 2 ^ 53 := lt_of_lt_of_le h1 hp
  rw [xyzToTms_exact z y hz h0 h1']
  show xyzToTms z (2 ^ z - 1 - y) = some y
  rw [xyzToTms_exact z (2 ^ z - 1 - y) hz (by linarith) (by linarith)]
  congr 1
  ring

/-- C3 witness: zoom 1, row 1. -/
theorem xyzToTms_involution_amended_witness :
    ((1 : Nat) ≤ 53 ∧ 0 ≤ (1 : Int) ∧ (1 : Int) < 2 ^ 1) ∧
    (xyzToTms 1 1).bind (xyzToTms 1) = some 1 :=
  ⟨⟨by decide, by decide, by decide⟩,
    xyzToTms_involution_amended 1 1 (by decide) (by decide) (by decide)⟩

/-- C4 counterexample: at zoom 60 the XYZ request for row 5 queries the
    rounded row `2^60` and misses, while the TMS request for row
    `2^60 - 1 - 5` queries `2^60 - 6` and hits, so the two conventions
    return different bytes for the same cell. -/
theorem tile_xyz_tms_agree_counterexample :
    ("a" ∈ dsZ60.mbtiles_databases ∧ (5 : Nat) < 2 ^ 60) ∧
    _tile dsZ60 "a" 60 0 5 false =
      .ok { body := MVT_404, content_type := "application/vnd.mapbox-vector-tile",
            status := 404, headers := [("Content-Encoding", "gzip")] } ∧
    _tile dsZ60 "a" 60 0 (2 ^ 60 - 1 - 5) true =
      .ok { body := [7], content_type := "application/vnd.mapbox-vector-tile",
            status := 200, headers := [("Content-Encoding", "gzip")] } ∧
    _tile dsZ60 "a" 60 0 5 false ≠ _tile dsZ60 "a" 60 0 (2 ^ 60 - 1 - 5) true := by
  have hA : _tile dsZ60 "a" 60 0 5 false =
      .ok { body := MVT_404, content_type := "application/vnd.mapbox-vector-tile",
            status := 404, headers := [("Content-Encoding", "gzip")] } := by rfl
  have hB : _tile dsZ60 "a" 60 0 (2 ^ 60 - 1 - 5) true =
      .ok { body := [7], content_type := "application/vnd.mapbox-vector-tile",
            status := 200, headers := [("Content-Encoding", "gzip")] } := by rfl
  refine ⟨⟨by decide, by decide⟩, hA, hB, ?_⟩
  rw [hA, hB]
  intro h
  simp [MVT_404] at h

/-- C4 (amended): for a known source and z ≤ 53 — the exact regime of the
    double pipeline — an XYZ request for row `y` and a TMS request for row
    `2^z - 1 - y` produce the same response. -/
theorem tile_xyz_tms_agree_amended (ds : Datasette) (db_name : String)
    (z x y : Nat) (hname : db_name ∈ ds.mbtiles_databases)
    (hz : z ≤ 53) (hy : y < 2 ^ z) :
    _tile ds db_name z x y false = _tile ds db_name z x (2 ^ z - 1 - y) true := by
  have hcast : ((2 ^ z - 1 - y : Nat) : Int) = 2 ^ z - 1 - (y : Int) := by
    have hc : ((2 : Int) ^ z) = ((2 ^ z : Nat) : Int) := by rw [Nat.cast_pow, Nat.cast_ofNat]
    rw [hc]
    generalize (2 ^ z : Nat) = n at hy ⊢
    omega
  have hyz : ((y : Int)) < 2 ^ 53 := by
    have hc : ((2 : Int) ^ 53) = ((2 ^ 53 : Nat) : Int) := by rw [Nat.cast_pow, Nat.cast_ofNat]
    have hn : y < 2 ^ 53 := lt_of_lt_of_le hy (Nat.pow_le_pow_right (by norm_num) hz)
    rw [hc]
    exact_mod_cast hn
  have hrow : xyzToTms z (y : Int) = some (2 ^ z - 1 - (y : Int)) :=
    xyzToTms_exact z (y : Int) hz (Int.natCast_nonneg y) hyz
  have hload : ∀ db : Db,
      load_tile db z x y false = load_tile db z x (2 ^ z - 1 - y) true := by
    intro db
    show (match xyzToTms z (y : Int) with
          | none => (Except.error "OverflowError" : Except String (Option Blob))
          | some row => Except.ok (db z x row)) =
        Except.ok (db z x ((2 ^ z - 1 - y : Nat) : Int))
    rw [hrow, hcast]
  unfold _tile
  rw [hload (ds.get_database db_name)]

/-- C4 witness: zoom 0’s single cell addressed in both conventions. -/
theorem tile_xyz_tms_agree_amended_witness :
    ("a" ∈ dsOne.mbtiles_databases ∧ (0 : Nat) ≤ 53 ∧ 0 < 2 ^ 0) ∧
    _tile dsOne "a" 0 0 0 false = _tile dsOne "a" 0 0 (2 ^ 0 - 1 - 0) true :=
  ⟨⟨by simp [dsOne], by decide, by decide⟩,
    tile_xyz_tms_agree_amended dsOne "a" 0 0 0 (by simp [dsOne]) (by decide)
      (by decide)⟩

/-- C5: an unknown source name fails with the `NotFound` error before any
    lookup — the result is the error, never a success, and it does not
    depend on the databases at all. -/
theorem unknown_source_not_found (ds : Datasette) (db_name : String)
    (z x y : Nat) (tms : Bool)
    (h : db_name ∉ ds.mbtiles_databases) :
    _tile ds db_name z x y tms = .error "Not a valid mbtiles database" ∧
    (∀ r : Response, _tile ds db_name z x y tms ≠ .ok r) ∧
    (∀ g : String → Db,
      _tile { ds with get_database := g } db_name z x y tms =
        .error "Not a valid mbtiles database") := by
  refine ⟨by simp [_tile, h], ?_, fun g => by simp [_tile, h]⟩
  intro r
  simp [_tile, h]

/-- C5 witness: `"b"` is not among the valid names of `dsOne`. -/
theorem unknown_source_not_found_witness :
    _tile dsOne "b" 0 0 0 false = .error "Not a valid mbtiles database" ∧
    (∀ r : Response, _tile dsOne "b" 0 0 0 false ≠ .ok r) ∧
    (∀ g : String → Db,
      _tile { dsOne with get_database := g } "b" 0 0 0 false =
        .error "Not a valid mbtiles database") :=
  unknown_source_not_found dsOne "b" 0 0 0 false (by simp [dsOne])

/-- C6: on a hit the response carries status 200, the stored blob
    byte-exact, the vector-tile content type and the gzip header — both
    for a single source and for a stack. -/
theorem hit_responses (ds : Datasette) (db_name : String)
    (pre post : List Db) (database : Db) (z x y : Nat) (tms : Bool) (t : Blob)
    (hname : db_name ∈ ds.mbtiles_databases)
    (hsingle : load_tile (ds.get_database db_name) z x y tms = .ok (some t))
    (hpre : ∀ d ∈ pre, load_tile d z x y tms = .ok none)
    (hhit : load_tile database z x y tms = .ok (some t)) :
    _tile ds db_name z x y tms =
      .ok { body := t, content_type := "application/vnd.mapbox-vector-tile",
            status := 200, headers := [("Content-Encoding", "gzip")] } ∧
    _tiles_stack (pre ++ database :: post) z x y tms =
      .ok { body := t, content_type := "application/vnd.mapbox-vector-tile",
            status := 200, headers := [("Content-Encoding", "gzip")] } := by
  constructor
  · simp [_tile, hname, hsingle]
  · rw [tiles_stack_skip pre (database :: post) z x y tms hpre]
    simp [_tiles_stack, hhit]

/-- C6 witness: `dsOne` answers with the blob `[1]` in both modes. -/
theorem hit_responses_witness :
    _tile dsOne "a" 0 0 0 false =
      .ok { body := [1], content_type := "application/vnd.mapbox-vector-tile",
            status := 200, headers := [("Content-Encoding", "gzip")] } ∧
    _tiles_stack ([] ++ dbOne :: []) 0 0 0 false =
      .ok { body := [1], content_type := "application/vnd.mapbox-vector-tile",
            status := 200, headers := [("Content-Encoding", "gzip")] } :=
  hit_responses dsOne "a" [] [] dbOne 0 0 0 false [1]
    (by simp [dsOne]) rfl (by simp) rfl

/-- C7 counterexample: a request at zoom 1024 makes `math.pow` overflow,
    so the handler errors instead of answering with a miss; and at zoom 60
    the out-of-range XYZ row `2^60` converts to row 0, which is not
    negative. -/
theorem out_of_range_is_ordinary_miss_counterexample :
    _tile dsEmpty "a" 1024 0 0 false = .error "OverflowError" ∧
    xyzToTms 60 (2 ^ 60) = some 0 ∧ ¬ ((0 : Int) < 0) := by
  exact ⟨by rfl, by decide, by decide⟩

/-- C7 (amended): whenever the XYZ row computation succeeds with row `r`
    (it raises OverflowError instead for z ≥ 1024) and the store has
    nothing at `(z, x, r)` — out of range or outside any declared zoom
    bounds, which the lookup never consults — the request is answered
    with the ordinary 404 miss response, never an error; in the exact
    regime z ≤ 53, `y < 2^53`, an out-of-range row `y ≥ 2^z` does give a
    negative computed row. -/
theorem out_of_range_is_ordinary_miss_amended (ds : Datasette)
    (db_name : String) (z x y : Nat) (r : Int)
    (hname : db_name ∈ ds.mbtiles_databases)
    (hrow : xyzToTms z (y : Int) = some r)
    (habsent : ds.get_database db_name z x r = none) :
    _tile ds db_name z x y false =
      .ok { body := MVT_404, content_type := "application/vnd.mapbox-vector-tile",
            status := 404, headers := [("Content-Encoding", "gzip")] } ∧
    (∀ e : String, _tile ds db_name z x y false ≠ .error e) ∧
    (z ≤ 53 → (y : Int) < 2 ^ 53 → 2 ^ z ≤ y → r < 0) := by
  have hload : load_tile (ds.get_database db_name) z x y false = .ok none := by
    show (match xyzToTms z (y : Int) with
          | none => (Except.error "OverflowError" : Except String (Option Blob))
          | some row => Except.ok (ds.get_database db_name z x row)) = .ok none
    rw [hrow]
    show Except.ok (ds.get_database db_name z x r) = .ok none
    rw [habsent]
  have hresp : _tile ds db_name z x y false =
      .ok { body := MVT_404, content_type := "application/vnd.mapbox-vector-tile",
            status := 404, headers := [("Content-Encoding", "gzip")] } := by
    simp [_tile, hname, hload]
  refine ⟨hresp, fun e => by simp [hresp], ?_⟩
  intro hz hy53 hge
  have hexact := xyzToTms_exact z (y : Int) hz (Int.natCast_nonneg y) hy53
  rw [hexact] at hrow
  have hr : r = 2 ^ z - 1 - (y : Int) := (Option.some_inj.mp hrow).symm
  have hge' : (2 : Int) ^ z ≤ (y : Int) := by
    have hc : ((2 : Int) ^ z) = ((2 ^ z : Nat) : Int) := by rw [Nat.cast_pow, Nat.cast_ofNat]
    rw [hc]
    exact_mod_cast hge
  rw [hr]
  linarith

/-- C7 witness: zoom 0, XYZ row 1 (out of range) against an empty store. -/
theorem out_of_range_is_ordinary_miss_amended_witness :
    _tile dsEmpty "a" 0 0 1 false =
      .ok { body := MVT_404, content_type := "application/vnd.mapbox-vector-tile",
            status := 404, headers := [("Content-Encoding", "gzip")] } ∧
    (∀ e : String, _tile dsEmpty "a" 0 0 1 false ≠ .error e) ∧
    ((0 : Nat) ≤ 53 → ((1 : Nat) : Int) < 2 ^ 53 → 2 ^ 0 ≤ 1 → (-1 : Int) < 0) :=
  out_of_range_is_ordinary_miss_amended dsEmpty "a" 0 0 1 (-1)
    (by simp [dsEmpty]) (by decide) rfl

/-! Folding `min` (resp. `max`) over a list, as Python's `min(...)` /
    `max(...)` on a nonempty list does, yields an element of the list that
    bounds every element. -/

theorem foldl_min_mem (l : List Int) (a : Int) : l.foldl min a ∈ a :: l := by
  induction l generalizing a with
  | nil => simp
  | cons b bs ih =>
      simp only [List.foldl_cons]
      have h := ih (min a b)
      rw [List.mem_cons] at h
      rcases h with h | h
      · rcases min_choice a b with hm | hm <;> rw [h, hm] <;> simp
      · simp [h]

theorem foldl_min_le (l : List Int) (a : Int) :
    l.foldl min a ≤ a ∧ ∀ b ∈ l, l.foldl min a ≤ b := by
  induction l generalizing a with
  | nil => simp
  | cons c cs ih =>
      simp only [List.foldl_cons]
      obtain ⟨h1, h2⟩ := ih (min a c)
      refine ⟨le_trans h1 (min_le_left a c), ?_⟩
      intro b hb
      rw [List.mem_cons] at hb
      rcases hb with rfl | hb
      · exact le_trans h1 (min_le_right a b)
      · exact h2 b hb

theorem foldl_max_mem (l : List Int) (a : Int) : l.foldl max a ∈ a :: l := by
  induction l generalizing a with
  | nil => simp
  | cons b bs ih =>
      simp only [List.foldl_cons]
      have h := ih (max a b)
      rw [List.mem_cons] at h
      rcases h with h | h
      · rcases max_choice a b with hm | hm <;> rw [h, hm] <;> simp
      · simp [h]

theorem foldl_max_ge (l : List Int) (a : Int) :
    a ≤ l.foldl max a ∧ ∀ b ∈ l, b ≤ l.foldl max a := by
  induction l generalizing a with
  | nil => simp
  | cons c cs ih =>
      simp only [List.foldl_cons]
      obtain ⟨h1, h2⟩ := ih (max a c)
      refine ⟨le_trans (le_max_left a c) h1, ?_⟩
      intro b hb
      rw [List.mem_cons] at hb
      rcases hb with rfl | hb
      · exact le_trans (le_max_right a b) h1
      · exact h2 b hb

/-- C8: when the stack explorer succeeds, its reported `min_zoom` is the
    minimum of the declared `minzoom` values of the stack's sources and
    its `max_zoom` is the maximum of the declared `maxzoom` values. -/
theorem stack_explorer_zoom_envelope (dbs : List Metadata)
    (ctx : StackExplorerContext)
    (h : tiles_stack_explorer dbs = some ctx) :
    (ctx.min_zoom ∈ dbs.filterMap Metadata.minzoom ∧
      ∀ v ∈ dbs.filterMap Metadata.minzoom, ctx.min_zoom ≤ v) ∧
    (ctx.max_zoom ∈ dbs.filterMap Metadata.maxzoom ∧
      ∀ v ∈ dbs.filterMap Metadata.maxzoom, v ≤ ctx.max_zoom) := by
  simp only [tiles_stack_explorer] at h
  cases hmin : dbs.filterMap Metadata.minzoom with
  | nil => rw [hmin] at h; simp at h
  | cons mz mzs =>
      cases hmax : dbs.filterMap Metadata.maxzoom with
      | nil => rw [hmin, hmax] at h; simp at h
      | cons xz xzs =>
          rw [hmin, hmax] at h
          simp only [Option.some_inj] at h
          subst h
          refine ⟨⟨foldl_min_mem mzs mz, ?_⟩, foldl_max_mem xzs xz, ?_⟩
          · intro v hv
            rw [List.mem_cons] at hv
            rcases hv with rfl | hv
            · exact (foldl_min_le mzs v).1
            · exact (foldl_min_le mzs mz).2 v hv
          · intro v hv
            rw [List.mem_cons] at hv
            rcases hv with rfl | hv
            · exact (foldl_max_ge xzs v).1
            · exact (foldl_max_ge xzs xz).2 v hv

/-- C8 witness: two sources with zoom ranges [3,10] and [1,7] give the
    envelope [1,10]. -/
theorem stack_explorer_zoom_envelope_witness :
    tiles_stack_explorer
        [{ minzoom := some 3, maxzoom := some 10 },
         { minzoom := some 1, maxzoom := some 7 }] =
      some { default_zoom := 1, min_zoom := 1, max_zoom := 10,
             attribution := "" } ∧
    ((1 : Int) ∈ [(3 : Int), 1] ∧ ∀ v ∈ [(3 : Int), 1], (1 : Int) ≤ v) ∧
    ((10 : Int) ∈ [(10 : Int), 7] ∧ ∀ v ∈ [(10 : Int), 7], v ≤ (10 : Int)) := by
  have h : tiles_stack_explorer
      [{ minzoom := some 3, maxzoom := some 10 },
       { minzoom := some 1, maxzoom := some 7 }] =
      some { default_zoom := 1, min_zoom := 1, max_zoom := 10,
             attribution := "" } := by rfl
  exact ⟨h, stack_explorer_zoom_envelope _ _ h⟩

/-- C9: code-bug evidence.  Every source of this stack declares the same
    attribution `"OSM"`, yet the explorer renders the empty attribution,
    because the `attributions` list is never filled by the loop; the
    code's own comment ("If all attributions are the same, use that")
    promises `"OSM"` here. -/
theorem stack_explorer_attribution_always_blank :
    (∀ m ∈ [({ minzoom := some 0, maxzoom := some 1,
               attribution := some "OSM" } : Metadata)],
        m.attribution = some "OSM") ∧
    tiles_stack_explorer
        [{ minzoom := some 0, maxzoom := some 1, attribution := some "OSM" }] =
      some { default_zoom := 0, min_zoom := 0, max_zoom := 1,
             attribution := "" } ∧
    ("" : String) ≠ "OSM" := by
  exact ⟨by simp, rfl, by decide⟩

/-- C10: when no source declares `minzoom` (in particular for the empty
    stack) or none declares `maxzoom`, the explorer hits `min([])` /
    `max([])` and fails with an unhandled error instead of producing a
    zoom range. -/
theorem stack_explorer_empty_zooms_error (dbs : List Metadata)
    (h : dbs.filterMap Metadata.minzoom = [] ∨
         dbs.filterMap Metadata.maxzoom = []) :
    tiles_stack_explorer dbs = none := by
  simp only [tiles_stack_explorer]
  cases hmin : dbs.filterMap Metadata.minzoom with
  | nil => cases dbs.filterMap Metadata.maxzoom <;> rfl
  | cons mz mzs =>
      rcases h with h | h
      · rw [hmin] at h; cases h
      · rw [h]

/-- C10 witness: the empty stack. -/
theorem stack_explorer_empty_zooms_error_witness :
    tiles_stack_explorer [] = none :=
  stack_explorer_empty_zooms_error [] (Or.inl rfl)

end DatasetteTiles
